import Mathlib

/-!
Verification of the snapshot-processing and workflow-orchestration core of
the gke-image-cache-builder repository.

The embedding below follows the shell workflow
`internal/scripts/setup-and-verify.sh` (image pulling, snapshot extraction,
metadata writing, integrity verification), the Go orchestrator
`pkg/builder/workflow.go`, and the registry authenticator
`internal/auth/registry.go`.

Modelling conventions:
- text lines are Lean `String`s; fields are recovered with a faithful model
  of `cut -d ' ' -f N` (including its pass-through behaviour on lines that
  contain no delimiter);
- `md5sum` is an abstract hash function `String → String`: every theorem
  about the checksum pipeline is proved for an arbitrary hash, so it holds
  in particular for md5;
- `LC_ALL=C sort` is an insertion sort over byte-lexicographic (codepoint)
  string order, defined executably so witnesses evaluate by `decide`;
- external commands (`ctr snapshot view`, `ctr image pull`, cloud CRUD)
  are modelled by outcome parameters: a function giving the result of the
  n-th invocation, exactly as the script observes them through exit codes
  and parsed output;
- the script runs under `set -e` with an ERR trap, and the models of
  pull_images and process_snapshots reproduce these errexit semantics: an
  unguarded failing command terminates the run with exit 1, and the
  arithmetic command `((current++))` fails when `current` is 0.
-/

/-! ## Byte-lexicographic string order and sort, modelling `LC_ALL=C sort` -/

/-- Byte-lexicographic (codepoint) order on character lists: the comparison
performed by `sort` under `LC_ALL=C` on the (ASCII) md5 digest lines. -/
def bytesLe : List Char → List Char → Bool
  | [], _ => true
  | _ :: _, [] => false
  | a :: as, b :: bs =>
    if a.val.toNat < b.val.toNat then true
    else if b.val.toNat < a.val.toNat then false
    else bytesLe as bs

/-- Locale-independent string comparison (byte order on the character data). -/
def strLeB (a b : String) : Bool := bytesLe a.data b.data

/-- Insertion of a string into a sorted list, keeping byte order. -/
def insertStr (s : String) : List String → List String
  | [] => [s]
  | t :: ts => if strLeB s t then s :: t :: ts else t :: insertStr s ts

/-- Model of `LC_ALL=C sort` on a list of text lines. -/
def sortStrings : List String → List String
  | [] => []
  | s :: ss => insertStr s (sortStrings ss)

/-! ## Two-level checksum (setup-and-verify.sh lines 545-546 and 622-623)

The pipeline is
`find DIR -type f -exec md5sum \x7b\x7d + | cut -d ' ' -f1 | LC_ALL=C sort | md5sum | cut -d ' ' -f1`.
`md5sum` prints one line `<digest>  <path>` per regular file; `cut -d ' ' -f1`
keeps only the digest, dropping the path; the digests are sorted in byte
order; the final `md5sum` hashes the newline-terminated digest lines. -/

/-- One regular file of a directory tree: its path relative to the tree root
and its content. `find -type f` enumerates exactly these. -/
structure FileEntry where
  relPath : String
  content : String
  deriving DecidableEq, Repr

/-- Two-level checksum of the files of one directory tree, parameterised by
the per-file hash `h` (md5 of the file content) and the combining hash `H`
(md5 of the byte stream fed to the final `md5sum`). The file list is given
in the enumeration order `find` happened to produce. Note that the per-file
digest `h f.content` depends on the file content only: the path printed by
`md5sum` is removed by `cut -d ' ' -f1` before sorting and rehashing. -/
def twoLevelChecksum (h H : String → String) (files : List FileEntry) : String :=
  H (String.join ((sortStrings (files.map (fun f => h f.content))).map (fun s => s ++ "\n")))

/-! ## Field extraction, modelling `cut -d ' ' -f N` -/

/-- Splitting of one text line at every single space, as `cut -d ' '` does:
consecutive delimiters produce empty fields. -/
def splitFields : List Char → List (List Char)
  | [] => [[]]
  | c :: cs =>
    if c = ' ' then [] :: splitFields cs
    else match splitFields cs with
      | [] => [[c]]
      | f :: fs => (c :: f) :: fs

/-- Model of `cut -d ' ' -f I` (1-based field index) on one line: a line
that contains no delimiter is printed whole regardless of the requested
field; otherwise the I-th field is printed, empty when out of range. -/
def cutField (line : String) (i : Nat) : String :=
  let parts := splitFields line.data
  if parts.length = 1 then line else String.mk (parts.getD (i - 1) [])

/-! ## Snapshot metadata written by the extractor (process_snapshots) -/

/-- One committed snapshot as the extractor sees it: its chain id (the
name listed by the snapshot store) and the destination path suffix
`snapshots/<id>/fs` recovered from the resolved mount path. -/
structure SnapshotInfo where
  chainId : String
  newPath : String
  deriving DecidableEq, Repr

/-- Metadata line appended by process_snapshots (lines 541-550 of
setup-and-verify.sh): `chain_id path` when checksum storage is off, and
`chain_id path checksum` when STORE_SNAPSHOT_CHECKSUMS is the string
"true". `disk` gives, for each path below the mount point, the regular
files found under it after the copy. -/
def snapshotMetadataLine (h H : String → String) (disk : String → List FileEntry)
    (storeChecksums : String) (s : SnapshotInfo) : String :=
  if storeChecksums = "true" then
    s.chainId ++ " " ++ s.newPath ++ " " ++ twoLevelChecksum h H (disk s.newPath)
  else
    s.chainId ++ " " ++ s.newPath

/-! ## Integrity verifier (verify_disk_image, lines 606-640) -/

/-- Outcome of the verification scan: either the scan aborted at the first
record without a stored checksum (`missingChecksum`, carrying the records
checked before the abort), or it completed, carrying each record with its
chain id with its pass/fail flag and the conjunction of all flags. -/
inductive VerifyResult
  | missingChecksum (checked : List (String × Bool))
  | completed (checked : List (String × Bool)) (ok : Bool)
  deriving DecidableEq, Repr

/-- Model of the while-read loop of verify_disk_image: empty lines are
skipped; a record whose third field is empty aborts immediately (exit 1);
otherwise the recomputed checksum `actual` of the path of the record is compared
with the stored one, a mismatch marks the record and the scan continues.
`actual p` is the two-level checksum the verifier recomputes for path `p`
on the mounted disk. -/
def runVerify (actual : String → String) : List String → VerifyResult
  | [] => .completed [] true
  | line :: rest =>
    if line = "" then runVerify actual rest
    else
      if cutField line 3 = "" then .missingChecksum []
      else
        let pass := decide (cutField line 3 = actual (cutField line 2))
        match runVerify actual rest with
        | .missingChecksum cs => .missingChecksum ((cutField line 1, pass) :: cs)
        | .completed cs ok => .completed ((cutField line 1, pass) :: cs) (pass && ok)

/-- Overall exit status of verify_disk_image: failure on a missing
baseline, otherwise failure exactly when some record mismatched. -/
def verifyExitFailure : VerifyResult → Bool
  | .missingChecksum _ => true
  | .completed _ ok => !ok

/-- Number of records reported as mismatched. -/
def verifyMismatchCount : VerifyResult → Nat
  | .missingChecksum cs => (cs.filter (fun r => !r.2)).length
  | .completed cs _ => (cs.filter (fun r => !r.2)).length

/-- Mapping read back by the verifier from the metadata file: the first
field (chain id) and third field (stored checksum) of every nonempty line. -/
def readMapping (lines : List String) : List (String × String) :=
  (lines.filter (fun l => l != "")).map (fun l => (cutField l 1, cutField l 3))

/-! ## Errexit semantics of the script

The script runs under `set -e` (line 5) with `trap cleanup_on_error ERR`
(line 57), and every observable exit through the trap is `exit 1`. Two
consequences shape the models below:
- the bash arithmetic command `((current++))` returns the status of its
  evaluated (pre-increment) value: with `current=0` the value is 0, the
  status is 1, and the script terminates. Both pull_images (line 421) and
  process_snapshots (line 494) open their loop body with exactly this
  command on a counter initialised to 0, so the first iteration of either
  loop terminates the script before anything else in the body runs;
- an unguarded failing external command (`ctr snapshot view`, line 505;
  `ctr image pull`, lines 445 and 448) terminates the script, so the
  `continue`-retry branch at lines 507-510 and the error-marker branch at
  lines 457-462 are dead code. -/

/-- Exit status of the bash arithmetic command `((current++))`: 1 exactly
when the evaluated (pre-increment) value is 0, else 0. Under `set -e` a
nonzero status terminates the script. -/
def arithPostIncrementStatus (current : Nat) : Nat :=
  if current = 0 then 1 else 0

/-! ## View-and-mount bounded retry (process_snapshots, lines 497-528) -/

/-- Outcome of one attempt of the view-and-mount step for a snapshot:
creating the view can fail (`ctr snapshot view` exits nonzero), or the view
is created but no `snapshots/<id>/fs` path can be parsed from the mount
output, or a usable path is obtained. -/
inductive AttemptOutcome
  | viewFail
  | parseFail
  | success (path : String)
  deriving DecidableEq, Repr

/-- Externally visible actions of the retry loop, in order. -/
inductive RetryAction
  | createView
  | mountQuery
  | removeView
  | sleepDelay
  deriving DecidableEq, Repr

/-- Result of the retry loop under errexit: a usable path was parsed
(`found`), the 5 attempts were exhausted without one (`exhausted`, after
which lines 525-528 exit 1), or the script itself died mid-loop at an
unguarded failing command (`scriptDied`). Every constructor carries the
trace of actions performed. -/
inductive RetryRun
  | found (path : String) (trace : List RetryAction)
  | exhausted (trace : List RetryAction)
  | scriptDied (trace : List RetryAction)
  deriving DecidableEq, Repr

/-- Model of the while-loop at lines 501-523 under `set -e`: `retries`
starts at 5 and the body runs while `retries ≥ 1`, so `fuel` attempts
remain and `att n` is the outcome of the (n+1)-th attempt. A failing
unguarded `ctr snapshot view` (line 505) terminates the script — the
`if [ $? -ne 0 ] … continue` branch at lines 507-510 is unreachable,
because reaching it requires the view command to have succeeded. A created
view whose mount path cannot be parsed (the assignment at lines 513-514
has status 0, so errexit is not triggered) is removed best-effort and the
loop sleeps 1 second before the next attempt; a parsed path breaks out. -/
def viewMountRetryErrexit (att : Nat → AttemptOutcome) : Nat → Nat → RetryRun
  | _, 0 => RetryRun.exhausted []
  | i, fuel + 1 =>
    match att i with
    | AttemptOutcome.viewFail => RetryRun.scriptDied [RetryAction.createView]
    | AttemptOutcome.parseFail =>
      match viewMountRetryErrexit att (i + 1) fuel with
      | RetryRun.found p t => RetryRun.found p (RetryAction.createView :: RetryAction.mountQuery
          :: RetryAction.removeView :: RetryAction.sleepDelay :: t)
      | RetryRun.exhausted t => RetryRun.exhausted (RetryAction.createView
          :: RetryAction.mountQuery :: RetryAction.removeView :: RetryAction.sleepDelay :: t)
      | RetryRun.scriptDied t => RetryRun.scriptDied (RetryAction.createView
          :: RetryAction.mountQuery :: RetryAction.removeView :: RetryAction.sleepDelay :: t)
    | AttemptOutcome.success p => RetryRun.found p [RetryAction.createView, RetryAction.mountQuery]

/-- Observable result of process_snapshots: the metadata lines appended to
snapshots.metadata, the trace of view/mount actions, and the exit status
(`some 1` when the script terminated, `none` when the function returned). -/
structure ProcessSnapshotsRun where
  metadataLines : List String
  actions : List RetryAction
  exitCode : Option Nat
  deriving DecidableEq, Repr

/-- Model of the process_snapshots loop (lines 489-559) under `set -e`:
`current` starts at 0 (line 491) and the body opens with `((current++))`
(line 494), whose status is `arithPostIncrementStatus current` — so the
first iteration terminates the script with exit 1 before any view is
created or any record written, for every nonempty snapshot list. The rest
of the body is transcribed for the record and is reachable only with
`current ≥ 1`: resolve the path with the bounded retry (`outcomes k` gives
the attempt outcomes for the (k+1)-th snapshot), copy the tree, append the
metadata line (`SnapshotInfo.newPath` stands for the `snapshots/<id>/fs`
suffix extracted at line 531), and remove the view best-effort. -/
def process_snapshots_loop (h H : String → String) (disk : String → List FileEntry)
    (store : String) (outcomes : Nat → Nat → AttemptOutcome) :
    Nat → Nat → List SnapshotInfo → ProcessSnapshotsRun
  | _, _, [] => ⟨[], [], none⟩
  | current, k, s :: rest =>
    if arithPostIncrementStatus current ≠ 0 then ⟨[], [], some 1⟩
    else
      match viewMountRetryErrexit (outcomes k) 0 5 with
      | RetryRun.scriptDied t => ⟨[], t, some 1⟩
      | RetryRun.exhausted t => ⟨[], t, some 1⟩
      | RetryRun.found _ t =>
        let line := snapshotMetadataLine h H disk store s
        let r := process_snapshots_loop h H disk store outcomes (current + 1) (k + 1) rest
        ⟨line :: r.metadataLines, t ++ RetryAction.removeView :: r.actions, r.exitCode⟩

/-- Model of process_snapshots as invoked by the script: the loop counter
starts at 0, so the run on any nonempty snapshot list terminates at the
first `((current++))`. -/
def process_snapshots_errexit (h H : String → String) (disk : String → List FileEntry)
    (store : String) (outcomes : Nat → Nat → AttemptOutcome)
    (snaps : List SnapshotInfo) : ProcessSnapshotsRun :=
  process_snapshots_loop h H disk store outcomes 0 0 snaps

/-! ## Image puller (pull_images, lines 410-473) -/

/-- Containment of a single character in a string, as the bash glob test
`[[ "$image" != *"."* ]]` observes it (a match anywhere in the string). -/
def containsChar (s : String) (c : Char) : Bool := s.data.contains c

/-- Model of the full_image_name computation (lines 428-438): a reference
containing a dot anywhere is used unchanged; otherwise a reference without
a slash gets the official-image namespace of the default registry, and a
reference with a slash gets the default registry domain only. -/
def full_image_name (image : String) : String :=
  if containsChar image '.' = false then
    if containsChar image '/' = false then "docker.io/library/" ++ image
    else "docker.io/" ++ image
  else image

/-- Predicate following the words of the spec (section 4.4): a
registry-domain marker is a dot in the part before the first slash (the
whole reference when it has no slash). Stated for comparison with the
reference normalization the code performs. -/
def specHasDomainMarker (image : String) : Bool :=
  (image.data.takeWhile (fun c => c ≠ '/')).contains '.'

/-- Observable result of pull_images: the success marker files written (the
fully qualified name per successful pull, in order), the error marker file
(never written — the branch at lines 457-462 is dead under errexit), the
unknown-auth marker, the pulls actually executed, the all-images-pulled
marker, and the exit status (`some 1` when the script terminated). -/
structure PullImagesRun where
  successFlags : List String
  errorFlag : Option (String × Nat)
  unknownAuthFlag : Bool
  attempted : List String
  allPulledFlag : Bool
  exitCode : Option Nat
  deriving DecidableEq, Repr

/-- Model of the pull_images loop (lines 410-473) under `set -e`: `current`
starts at 0 (line 413) and the body opens with `((current++))` (line 421),
whose status is `arithPostIncrementStatus current` — so the first iteration
terminates the script with exit 1 before any pull is executed or any
marker written, for every nonempty image list. The rest of the body is
transcribed for the record and is reachable only with `current ≥ 1`: the
reference is normalized; an unrecognised lower-cased OAUTH_MECHANISM
writes the unknown-auth marker and exits 1 (lines 450-454); a failing
unguarded `ctr image pull` (exit code `pullExit current`) terminates the
script before the error-marker branch at lines 457-462 can run; a
successful pull writes the success marker and the loop continues. An empty
list falls through to `touch /tmp/all_images_pulled.flag` (line 471). -/
def pull_images_errexit_loop (mech : String) (pullExit : Nat → Nat) :
    Nat → List String → PullImagesRun
  | _, [] => ⟨[], none, false, [], true, none⟩
  | current, img :: rest =>
    if arithPostIncrementStatus current ≠ 0 then ⟨[], none, false, [], false, some 1⟩
    else
      let full := full_image_name img
      if mech = "none" ∨ mech = "serviceaccounttoken" then
        if pullExit current = 0 then
          let r := pull_images_errexit_loop mech pullExit (current + 1) rest
          ⟨full :: r.successFlags, r.errorFlag, r.unknownAuthFlag, full :: r.attempted,
            r.allPulledFlag, r.exitCode⟩
        else ⟨[], none, false, [full], false, some 1⟩
      else ⟨[], none, true, [], false, some 1⟩

/-- Model of pull_images as invoked by the script: the loop counter starts
at 0, so the run on any nonempty image list terminates at the first
`((current++))`. -/
def pull_images_errexit (mech : String) (pullExit : Nat → Nat)
    (images : List String) : PullImagesRun :=
  pull_images_errexit_loop mech pullExit 0 images

/-! ## Workflow orchestrator (pkg/builder/workflow.go) -/

/-- References to the temporary resources the orchestrator owns: whether a
VM instance and a cache disk were created (workflow.go, WorkflowResources). -/
structure WorkflowResources where
  hasVMInstance : Bool
  hasCacheDisk : Bool
  deriving DecidableEq, Repr

/-- One scheduleCleanup invocation: the resources passed (nil before
environment setup succeeds) and the delay before cleanupResources runs. -/
structure CleanupCall where
  resources : Option WorkflowResources
  delaySeconds : Nat
  deriving DecidableEq, Repr

/-- Delay passed to every scheduleCleanup call in Execute: 5 minutes. -/
def fiveMinutes : Nat := 300

/-- Error produced by each step of Execute, `none` for success. These are
the outcomes Execute observes from its collaborators. -/
structure StepOutcomes where
  validateErr : Option String
  existingErr : Option String
  setupErr : Option String
  execErr : Option String
  createImageErr : Option String
  verifyErr : Option String
  deriving DecidableEq, Repr

/-- Model of Workflow.Execute (workflow.go lines 40-91): each step runs in
order; the first failure schedules cleanup and returns the error of that step annotated with the step name; existing-images handling runs in local mode
only; environment setup creates the disk and, in remote mode, the VM; on
full success cleanup of the resources is scheduled as well. The returned
pair is the error Execute returns and the list of scheduleCleanup calls
made (always with the 5-minute delay; cleanup itself runs asynchronously
and never contributes to the returned error). -/
def executeWorkflow (isLocalMode : Bool) (o : StepOutcomes) : Option String × List CleanupCall :=
  match o.validateErr with
  | some e => (some ("prerequisite validation failed: " ++ e), [⟨none, fiveMinutes⟩])
  | none =>
    match (if isLocalMode then o.existingErr else none) with
    | some e => (some ("existing images handling failed: " ++ e), [⟨none, fiveMinutes⟩])
    | none =>
      match o.setupErr with
      | some e => (some ("environment setup failed: " ++ e), [⟨none, fiveMinutes⟩])
      | none =>
        match o.execErr with
        | some e =>
          (some ((if isLocalMode then "local mode execution failed: "
              else "remote mode execution failed: ") ++ e),
            [⟨some ⟨!isLocalMode, true⟩, fiveMinutes⟩])
        | none =>
          match o.createImageErr with
          | some e => (some ("cache image creation failed: " ++ e),
              [⟨some ⟨!isLocalMode, true⟩, fiveMinutes⟩])
          | none =>
            match o.verifyErr with
            | some e => (some ("cache image verification failed: " ++ e),
                [⟨some ⟨!isLocalMode, true⟩, fiveMinutes⟩])
            | none => (none, [⟨some ⟨!isLocalMode, true⟩, fiveMinutes⟩])

/-! ## Substring containment, modelling Go strings.Contains and shell
argument flow for checksum storage (C9, C10) -/

/-- Leading-match test: the first list is an initial segment of the second. -/
def leadsChars : List Char → List Char → Bool
  | [], _ => true
  | _ :: _, [] => false
  | a :: as, b :: bs => (a == b) && leadsChars as bs

/-- Occurrence of a pattern anywhere in a character list. -/
def occursIn (pat : List Char) : List Char → Bool
  | [] => pat.isEmpty
  | c :: rest => leadsChars pat (c :: rest) || occursIn pat rest

/-- Model of Go strings.Contains: the second string occurs as a contiguous
substring anywhere in the first. -/
def stringsContains (s sub : String) : Bool := occursIn sub.data s.data

/-! ## Checksum-storage wiring (C9): workflow.go lines 259-267 and 380-386 -/

/-- Build configuration fields consumed by the two execution paths
(pkg/config Config; the struct has no checksum-storage field at all). -/
structure BuildConfig where
  imagePullAuth : String
  containerImages : List String
  deriving DecidableEq, Repr

/-- Image-processing request (internal/image ProcessConfig). -/
structure ProcessConfig where
  deviceName : String
  authMechanism : String
  storeChecksums : Bool
  images : List String
  deriving DecidableEq, Repr

/-- The ProcessConfig built by Workflow.executeLocalMode (lines 260-265):
StoreChecksums is the literal `true`, whatever the build request holds. -/
def localProcessConfig (cfg : BuildConfig) : ProcessConfig :=
  ⟨"secondary-disk-image-disk", cfg.imagePullAuth, true, cfg.containerImages⟩

/-- Go fmt `%t` of a Bool. -/
def goBoolString (b : Bool) : String := if b then "true" else "false"

/-- Arguments Cache.ProcessImagesWithScript passes to the embedded script
(internal/image/cache.go): full-workflow mode with `%t`-formatted
StoreChecksums in third position, which the script binds to
STORE_SNAPSHOT_CHECKSUMS. -/
def fullWorkflowArgs (pc : ProcessConfig) : List String :=
  ["full-workflow", pc.deviceName, pc.authMechanism, goBoolString pc.storeChecksums] ++ pc.images

/-- The images portion of the remote command (workflow.go lines 375-378):
the container images joined by spaces, with a fallback default when the
list is empty. -/
def remoteImagesArg (cfg : BuildConfig) : String :=
  if cfg.containerImages.length > 0 then String.intercalate " " cfg.containerImages
  else "nginx:latest"

/-- A single-quote character, written by code point to build the command
text exactly as fmt.Sprintf does. -/
def singleQuote : String := String.mk [Char.ofNat 39]

/-- The command Workflow.executeRemoteImageProcessing dispatches to the
remote VM (lines 380-386): the pull-images invocation carries the literal
argument `true` for checksum storage. -/
def remoteProcessingCommand (cfg : BuildConfig) : String :=
  "/tmp/setup-and-verify.sh prepare-disk secondary-disk-image-disk && " ++
    "/tmp/setup-and-verify.sh pull-images " ++ cfg.imagePullAuth ++ " true " ++
    remoteImagesArg cfg ++ " && echo " ++ singleQuote ++ "Unpacking is completed." ++ singleQuote

/-- The argument list the pull-images mode of the script receives on the remote
VM after shell word splitting of the dispatched command: auth mechanism,
then the literal "true", then the images. -/
def remotePullImagesArgs (cfg : BuildConfig) : List String :=
  [cfg.imagePullAuth, "true"] ++
    (if cfg.containerImages.isEmpty then ["nginx:latest"] else cfg.containerImages)

/-! ## Registry authenticator (internal/auth/registry.go) -/

/-- The fixed list of domain substrings of isGCPRegistry (lines 112-121). -/
def gcpRegistries : List String :=
  ["gcr.io", "us.gcr.io", "eu.gcr.io", "asia.gcr.io", "pkg.dev",
   "us-docker.pkg.dev", "eu-docker.pkg.dev", "asia-docker.pkg.dev"]

/-- Model of isGCPRegistry (lines 111-128): true exactly when some entry of
the fixed list occurs anywhere in the registry string (strings.Contains) —
the match is not anchored to the host suffix. -/
def isGCPRegistry (registry : String) : Bool :=
  gcpRegistries.any (fun g => stringsContains registry g)

/-- Registry authentication configuration (lines 131-137); Go zero values
are empty strings. -/
structure AuthConfig where
  type : String
  token : String
  username : String
  password : String
  registry : String
  deriving DecidableEq, Repr

/-- Model of RegistryAuth.getServiceAccountAuth (lines 41-64): a registry
that is not GCP-matched silently gets an AuthConfig of type "none" with no
error; for a matched registry the resolved access token (`tokenRes`, none
when credential or token retrieval fails) is attached as a bearer config,
and a retrieval failure is a hard error. -/
def getServiceAccountAuth (tokenRes : Option String) (registry : String) :
    Except String AuthConfig :=
  if isGCPRegistry registry = false then Except.ok ⟨"none", "", "", "", ""⟩
  else
    match tokenRes with
    | none => Except.error "failed to get access token"
    | some tok => Except.ok ⟨"bearer", tok, "_token", tok, registry⟩

/-! ## Properties

Everything below is a theorem about the definitions above; the claims of
the specification appear as the C-numbered theorems, each with its witness
or counterexample. -/

theorem bytesLe_cons_lt {x y : Char} (h : x.val.toNat < y.val.toNat) (xs ys : List Char) :
    bytesLe (x :: xs) (y :: ys) = true := by
  simp only [bytesLe]
  rw [if_pos h]

theorem bytesLe_cons_gt {x y : Char} (h : y.val.toNat < x.val.toNat) (xs ys : List Char) :
    bytesLe (x :: xs) (y :: ys) = false := by
  simp only [bytesLe]
  rw [if_neg (by omega), if_pos h]

theorem bytesLe_cons_eqv {x y : Char} (h : x.val.toNat = y.val.toNat) (xs ys : List Char) :
    bytesLe (x :: xs) (y :: ys) = bytesLe xs ys := by
  simp only [bytesLe]
  rw [if_neg (by omega), if_neg (by omega)]

theorem bytesLe_total : ∀ xs ys, bytesLe xs ys = true ∨ bytesLe ys xs = true
  | [], _ => Or.inl rfl
  | _ :: _, [] => Or.inr rfl
  | a :: as, b :: bs => by
    rcases Nat.lt_trichotomy a.val.toNat b.val.toNat with h | h | h
    · exact Or.inl (bytesLe_cons_lt h as bs)
    · rw [bytesLe_cons_eqv h, bytesLe_cons_eqv h.symm]
      exact bytesLe_total as bs
    · exact Or.inr (bytesLe_cons_lt h bs as)

theorem bytesLe_antisymm : ∀ xs ys, bytesLe xs ys = true → bytesLe ys xs = true → xs = ys
  | [], [], _, _ => rfl
  | [], _ :: _, _, h2 => by cases h2
  | _ :: _, [], h1, _ => by cases h1
  | a :: as, b :: bs, h1, h2 => by
    rcases Nat.lt_trichotomy a.val.toNat b.val.toNat with h | h | h
    · rw [bytesLe_cons_gt h bs as] at h2; cases h2
    · have hab : a = b := Char.ext (UInt32.ext h)
      rw [bytesLe_cons_eqv h] at h1
      rw [bytesLe_cons_eqv h.symm] at h2
      rw [hab, bytesLe_antisymm as bs h1 h2]
    · rw [bytesLe_cons_gt h as bs] at h1; cases h1

theorem bytesLe_trans :
    ∀ xs ys zs, bytesLe xs ys = true → bytesLe ys zs = true → bytesLe xs zs = true
  | [], _, _, _, _ => rfl
  | _ :: _, [], _, h1, _ => by cases h1
  | _ :: _, _ :: _, [], _, h2 => by cases h2
  | x :: xs, y :: ys, z :: zs, h1, h2 => by
    rcases Nat.lt_trichotomy x.val.toNat y.val.toNat with hxy | hxy | hxy
    · rcases Nat.lt_trichotomy y.val.toNat z.val.toNat with hyz | hyz | hyz
      · exact bytesLe_cons_lt (Nat.lt_trans hxy hyz) xs zs
      · exact bytesLe_cons_lt (by omega) xs zs
      · rw [bytesLe_cons_gt hyz ys zs] at h2; cases h2
    · rcases Nat.lt_trichotomy y.val.toNat z.val.toNat with hyz | hyz | hyz
      · exact bytesLe_cons_lt (by omega) xs zs
      · rw [bytesLe_cons_eqv hxy] at h1
        rw [bytesLe_cons_eqv hyz] at h2
        rw [bytesLe_cons_eqv (hxy.trans hyz)]
        exact bytesLe_trans xs ys zs h1 h2
      · rw [bytesLe_cons_gt hyz ys zs] at h2; cases h2
    · rw [bytesLe_cons_gt hxy xs ys] at h1; cases h1

theorem strLeB_total (a b : String) : strLeB a b = true ∨ strLeB b a = true :=
  bytesLe_total a.data b.data

theorem strLeB_trans (a b c : String) (h1 : strLeB a b = true) (h2 : strLeB b c = true) :
    strLeB a c = true :=
  bytesLe_trans a.data b.data c.data h1 h2

theorem strLeB_antisymm (a b : String) (h1 : strLeB a b = true) (h2 : strLeB b a = true) :
    a = b := by
  cases a; cases b
  exact congrArg String.mk (bytesLe_antisymm _ _ h1 h2)

theorem insertStr_perm (s : String) (l : List String) :
    (insertStr s l).Perm (s :: l) := by
  induction l with
  | nil => exact List.Perm.refl _
  | cons t ts ih =>
    by_cases h : strLeB s t = true
    · simp [insertStr, h]
    · simp only [insertStr, h, if_false]
      exact (List.Perm.cons t ih).trans (List.Perm.swap s t ts)

theorem sortStrings_perm (l : List String) : (sortStrings l).Perm l := by
  induction l with
  | nil => exact List.Perm.refl _
  | cons s ss ih =>
    exact (insertStr_perm s (sortStrings ss)).trans (List.Perm.cons s ih)

theorem insertStr_sorted (s : String) (l : List String)
    (h : l.Sorted (fun a b => strLeB a b = true)) :
    (insertStr s l).Sorted (fun a b => strLeB a b = true) := by
  induction l with
  | nil => simp [insertStr]
  | cons t ts ih =>
    obtain ⟨ht, hts⟩ := List.sorted_cons.mp h
    by_cases hst : strLeB s t = true
    · rw [insertStr, if_pos hst]
      refine List.sorted_cons.mpr ⟨?_, h⟩
      intro b hb
      rcases List.mem_cons.mp hb with rfl | hb
      · exact hst
      · exact strLeB_trans s t b hst (ht b hb)
    · rw [insertStr, if_neg hst]
      have hts' : strLeB t s = true := (strLeB_total s t).resolve_left hst
      refine List.sorted_cons.mpr ⟨?_, ih hts⟩
      intro b hb
      rcases List.mem_cons.mp ((insertStr_perm s ts).mem_iff.mp hb) with rfl | hb2
      · exact hts'
      · exact ht b hb2

theorem sortStrings_sorted (l : List String) :
    (sortStrings l).Sorted (fun a b => strLeB a b = true) := by
  induction l with
  | nil => simp [sortStrings]
  | cons s ss ih => exact insertStr_sorted s (sortStrings ss) ih

theorem sortStrings_eq_of_perm (l1 l2 : List String) (h : l1.Perm l2) :
    sortStrings l1 = sortStrings l2 := by
  have hperm : (sortStrings l1).Perm (sortStrings l2) :=
    (sortStrings_perm l1).trans (h.trans (sortStrings_perm l2).symm)
  exact @List.eq_of_perm_of_sorted String (fun a b => strLeB a b = true)
    ⟨fun a b h1 h2 => strLeB_antisymm a b h1 h2⟩ _ _ hperm
    (sortStrings_sorted l1) (sortStrings_sorted l2)

/-- Helper shared by the checksum claims: the checksum depends only on the
multiset of per-file content hashes. -/
theorem twoLevelChecksum_eq_of_content_perm (h H : String → String)
    (t1 t2 : List FileEntry)
    (hp : (t1.map FileEntry.content).Perm (t2.map FileEntry.content)) :
    twoLevelChecksum h H t1 = twoLevelChecksum h H t2 := by
  unfold twoLevelChecksum
  have h1 : t1.map (fun f => h f.content) = (t1.map FileEntry.content).map h := by
    simp [List.map_map]
  have h2 : t2.map (fun f => h f.content) = (t2.map FileEntry.content).map h := by
    simp [List.map_map]
  rw [h1, h2, sortStrings_eq_of_perm _ _ (hp.map h)]

/-- C2: for every directory tree, the two-level checksum computed by the
extractor and the verifier is invariant under the enumeration order of the
files: two copies of the same tree whose files are enumerated (created) in
different orders have identical checksums, for every per-file hash `h` and
combining hash `H`. -/
theorem C2_checksum_order_invariance (h H : String → String)
    (t1 t2 : List FileEntry) (hp : t1.Perm t2) :
    twoLevelChecksum h H t1 = twoLevelChecksum h H t2 :=
  twoLevelChecksum_eq_of_content_perm h H t1 t2 (hp.map FileEntry.content)

/-- Witness for C2 at a concrete two-file tree listed in two orders. -/
theorem C2_checksum_order_invariance_witness :
    ([⟨"a", "x"⟩, ⟨"b", "y"⟩] : List FileEntry).Perm [⟨"b", "y"⟩, ⟨"a", "x"⟩] ∧
      twoLevelChecksum (fun s => s) (fun s => s) [⟨"a", "x"⟩, ⟨"b", "y"⟩] =
        twoLevelChecksum (fun s => s) (fun s => s) [⟨"b", "y"⟩, ⟨"a", "x"⟩] :=
  ⟨List.Perm.swap _ _ _,
    C2_checksum_order_invariance (fun s => s) (fun s => s) _ _ (List.Perm.swap _ _ _)⟩

/-- C3 counterexample: renaming the single file of a tree from `a` to `b`
while keeping its content leaves the two-level checksum unchanged, whereas
the claim asserts that every such rename changes it. The paths never enter
the hash input (`cut -d ' ' -f1` drops them), so the equality holds for
every hash function; it is exhibited here at a concrete one. -/
theorem C3_structure_sensitivity_counterexample :
    twoLevelChecksum (fun s => s) (fun s => s) [⟨"a", "x"⟩] =
        twoLevelChecksum (fun s => s) (fun s => s) [⟨"b", "x"⟩] ∧
      ("a" : String) ≠ "b" := by
  constructor
  · rfl
  · decide

/-- C3 amended: the two-level checksum is a function of exactly the multiset
of per-file content hashes — it is sensitive to file content (through the
per-file hash) but invariant under every change of file names or relative
paths that preserves the multiset of contents; it is NOT sensitive to
relative structure. -/
theorem C3_checksum_content_only (h H : String → String)
    (t1 t2 : List FileEntry)
    (hp : (t1.map FileEntry.content).Perm (t2.map FileEntry.content)) :
    twoLevelChecksum h H t1 = twoLevelChecksum h H t2 :=
  twoLevelChecksum_eq_of_content_perm h H t1 t2 hp

/-- Witness for the amended C3: moving a file `d1/f` to `d2/g` (same
content) leaves the checksum unchanged. -/
theorem C3_checksum_content_only_witness :
    (([⟨"d1/f", "x"⟩, ⟨"k", "y"⟩] : List FileEntry).map FileEntry.content).Perm
        (([⟨"d2/g", "x"⟩, ⟨"k", "y"⟩] : List FileEntry).map FileEntry.content) ∧
      twoLevelChecksum (fun s => s) (fun s => s) [⟨"d1/f", "x"⟩, ⟨"k", "y"⟩] =
        twoLevelChecksum (fun s => s) (fun s => s) [⟨"d2/g", "x"⟩, ⟨"k", "y"⟩] := by
  refine ⟨by decide, C3_checksum_content_only (fun s => s) (fun s => s) _ _ (by decide)⟩

theorem string_data_append (a b : String) : (a ++ b).data = a.data ++ b.data := rfl

theorem string_mk_data (s : String) : String.mk s.data = s := rfl

theorem string_mk_nil : String.mk [] = "" := rfl

theorem string_eq_empty_iff (s : String) : s = "" ↔ s.data = [] := by
  constructor
  · intro h; rw [h]
  · intro h; rw [← string_mk_data s, h]

theorem splitFields_no_space (xs : List Char) (h : ' ' ∉ xs) : splitFields xs = [xs] := by
  induction xs with
  | nil => rfl
  | cons c cs ih =>
    have hc : ¬ (c = ' ') := fun hc => h (hc ▸ List.mem_cons_self c cs)
    have hcs : ' ' ∉ cs := fun hm => h (List.mem_cons_of_mem c hm)
    rw [splitFields, if_neg hc, ih hcs]

theorem splitFields_append (xs rest : List Char) (h : ' ' ∉ xs) :
    splitFields (xs ++ ' ' :: rest) = xs :: splitFields rest := by
  induction xs with
  | nil => simp [splitFields]
  | cons c cs ih =>
    have hc : ¬ (c = ' ') := fun hc => h (hc ▸ List.mem_cons_self c cs)
    have hcs : ' ' ∉ cs := fun hm => h (List.mem_cons_of_mem c hm)
    rw [List.cons_append, splitFields, if_neg hc, ih hcs]

/-- Field extraction on a well-formed three-field metadata line
`chain_id path checksum`. -/
theorem cutField_three (cid p c : String)
    (h1 : ' ' ∉ cid.data) (h2 : ' ' ∉ p.data) (h3 : ' ' ∉ c.data) :
    cutField (cid ++ " " ++ p ++ " " ++ c) 1 = cid ∧
      cutField (cid ++ " " ++ p ++ " " ++ c) 2 = p ∧
      cutField (cid ++ " " ++ p ++ " " ++ c) 3 = c := by
  have hdata : (cid ++ " " ++ p ++ " " ++ c).data
      = cid.data ++ ' ' :: (p.data ++ ' ' :: c.data) := by
    simp [string_data_append, show (" " : String).data = [' '] from rfl, List.append_assoc]
  have hsplit : splitFields (cid.data ++ ' ' :: (p.data ++ ' ' :: c.data))
      = [cid.data, p.data, c.data] := by
    rw [splitFields_append _ _ h1, splitFields_append _ _ h2, splitFields_no_space _ h3]
  refine ⟨?_, ?_, ?_⟩ <;>
    simp [cutField, hdata, hsplit, string_mk_data]

/-- Field extraction on a two-field metadata line `chain_id path` (written
when checksum storage is off): the third field is empty. -/
theorem cutField_two (cid p : String) (h1 : ' ' ∉ cid.data) (h2 : ' ' ∉ p.data) :
    cutField (cid ++ " " ++ p) 1 = cid ∧
      cutField (cid ++ " " ++ p) 2 = p ∧
      cutField (cid ++ " " ++ p) 3 = "" := by
  have hdata : (cid ++ " " ++ p).data = cid.data ++ ' ' :: p.data := by
    simp [string_data_append, show (" " : String).data = [' '] from rfl, List.append_assoc]
  have hsplit : splitFields (cid.data ++ ' ' :: p.data) = [cid.data, p.data] := by
    rw [splitFields_append _ _ h1, splitFields_no_space _ h2]
  refine ⟨?_, ?_, ?_⟩ <;>
    simp [cutField, hdata, hsplit, string_mk_data, string_mk_nil]

/-- Helper: a scan over records that all carry a checksum completes, reports
every nonempty record individually, and succeeds exactly when all match. -/
theorem runVerify_clean (actual : String → String) (lines : List String)
    (hw : ∀ l ∈ lines, l = "" ∨ cutField l 3 ≠ "") :
    runVerify actual lines = .completed
      ((lines.filter (fun l => l != "")).map
        (fun l => (cutField l 1, decide (cutField l 3 = actual (cutField l 2)))))
      ((lines.filter (fun l => l != "")).all
        (fun l => decide (cutField l 3 = actual (cutField l 2)))) := by
  induction lines with
  | nil => rfl
  | cons line rest ih =>
    have hrest := ih (fun l hl => hw l (List.mem_cons_of_mem line hl))
    by_cases hne : line = ""
    · subst hne
      simp only [runVerify, if_pos rfl, hrest, List.filter_cons]
      simp
    · have hck : cutField line 3 ≠ "" := (hw line (List.mem_cons_self line rest)).resolve_left hne
      have hkeep : (line != "") = true := bne_iff_ne.mpr hne
      simp only [runVerify, if_neg hne, if_neg hck, hrest, List.filter_cons, hkeep, if_true,
        List.map_cons, List.all_cons]

/-- Helper: the scan aborts at the first record lacking a checksum; the
records before it are the only ones examined, and the lines after it play
no role in the result. -/
theorem runVerify_missing (actual : String → String) (pre : List String) (bad : String)
    (post : List String)
    (hpre : ∀ l ∈ pre, l ≠ "" ∧ cutField l 3 ≠ "")
    (hbad1 : bad ≠ "") (hbad2 : cutField bad 3 = "") :
    runVerify actual (pre ++ bad :: post) = .missingChecksum
      (pre.map (fun l => (cutField l 1, decide (cutField l 3 = actual (cutField l 2))))) := by
  induction pre with
  | nil =>
    simp only [List.nil_append, runVerify, if_neg hbad1, if_pos hbad2, List.map_nil]
  | cons l pre ih =>
    obtain ⟨hne, hck⟩ := hpre l (List.mem_cons_self l pre)
    have hrest := ih (fun x hx => hpre x (List.mem_cons_of_mem l hx))
    simp only [List.cons_append, runVerify, if_neg hne, if_neg hck, List.append_eq, hrest,
      List.map_cons]

/-- C7: the verifier reads records in order and fails immediately at the
first record without a stored checksum (later lines are never examined);
when every record carries a checksum the scan never aborts, every record is
reported individually, and the overall operation fails exactly when some
record mismatched, so one corrupted record yields exactly one reported
mismatch while the others still verify. -/
theorem C7_verifier_fail_fast_and_complete (actual : String → String) :
    (∀ pre bad post post',
      (∀ l ∈ pre, l ≠ "" ∧ cutField l 3 ≠ "") → bad ≠ "" → cutField bad 3 = "" →
      runVerify actual (pre ++ bad :: post) = VerifyResult.missingChecksum
          (pre.map (fun l => (cutField l 1, decide (cutField l 3 = actual (cutField l 2))))) ∧
        runVerify actual (pre ++ bad :: post) = runVerify actual (pre ++ bad :: post')) ∧
    (∀ lines, (∀ l ∈ lines, l = "" ∨ cutField l 3 ≠ "") →
      runVerify actual lines = VerifyResult.completed
        ((lines.filter (fun l => l != "")).map
          (fun l => (cutField l 1, decide (cutField l 3 = actual (cutField l 2)))))
        ((lines.filter (fun l => l != "")).all
          (fun l => decide (cutField l 3 = actual (cutField l 2))))) ∧
    (∀ pre m post,
      (∀ l ∈ pre ++ m :: post, l ≠ "" ∧ cutField l 3 ≠ "") →
      (∀ l ∈ pre ++ post, cutField l 3 = actual (cutField l 2)) →
      cutField m 3 ≠ actual (cutField m 2) →
      verifyMismatchCount (runVerify actual (pre ++ m :: post)) = 1 ∧
        verifyExitFailure (runVerify actual (pre ++ m :: post)) = true) := by
  refine ⟨?_, runVerify_clean actual, ?_⟩
  · intro pre bad post post' hpre hbad1 hbad2
    exact ⟨runVerify_missing actual pre bad post hpre hbad1 hbad2,
      (runVerify_missing actual pre bad post hpre hbad1 hbad2).trans
        (runVerify_missing actual pre bad post' hpre hbad1 hbad2).symm⟩
  · intro pre m post hwf hok hmis
    have hw : ∀ l ∈ pre ++ m :: post, l = "" ∨ cutField l 3 ≠ "" :=
      fun l hl => Or.inr (hwf l hl).2
    have hfil : (pre ++ m :: post).filter (fun l => l != "") = pre ++ m :: post := by
      rw [List.filter_eq_self]
      intro a ha
      exact bne_iff_ne.mpr (hwf a ha).1
    have hdm : decide (cutField m 3 = actual (cutField m 2)) = false :=
      decide_eq_false hmis
    have hdpre : ∀ l ∈ pre, decide (cutField l 3 = actual (cutField l 2)) = true :=
      fun l hl => decide_eq_true (hok l (List.mem_append_left post hl))
    have hdpost : ∀ l ∈ post, decide (cutField l 3 = actual (cutField l 2)) = true :=
      fun l hl => decide_eq_true (hok l (List.mem_append_right pre hl))
    rw [runVerify_clean actual (pre ++ m :: post) hw, hfil]
    constructor
    · simp only [verifyMismatchCount, List.map_append, List.map_cons, List.filter_append,
        List.filter_cons, List.length_append]
      have e1 : (pre.map (fun l => (cutField l 1,
          decide (cutField l 3 = actual (cutField l 2))))).filter (fun r => !r.2) = [] := by
        rw [List.filter_eq_nil_iff]
        intro a ha
        obtain ⟨l, hl, rfl⟩ := List.mem_map.mp ha
        simp [hdpre l hl]
      have e2 : (post.map (fun l => (cutField l 1,
          decide (cutField l 3 = actual (cutField l 2))))).filter (fun r => !r.2) = [] := by
        rw [List.filter_eq_nil_iff]
        intro a ha
        obtain ⟨l, hl, rfl⟩ := List.mem_map.mp ha
        simp [hdpost l hl]
      simp [e1, e2, hdm]
    · simp only [verifyExitFailure, List.all_append, List.all_cons, hdm]
      simp

/-- Witness for C7 on a concrete three-record file whose middle record
mismatches: the scan completes, reports exactly one mismatch and fails. -/
theorem C7_verifier_fail_fast_and_complete_witness :
    verifyMismatchCount (runVerify (fun _ => "aa") ["c1 p1 aa", "c2 p2 bb", "c3 p3 aa"]) = 1 ∧
      verifyExitFailure (runVerify (fun _ => "aa") ["c1 p1 aa", "c2 p2 bb", "c3 p3 aa"]) = true := by
  have h := (C7_verifier_fail_fast_and_complete (fun _ => "aa")).2.2
    ["c1 p1 aa"] "c2 p2 bb" ["c3 p3 aa"] (by decide) (by decide) (by decide)
  exact h

/-- Helper: field decomposition of a checksum-bearing metadata line. -/
theorem snapshotMetadataLine_fields (h H : String → String) (disk : String → List FileEntry)
    (s : SnapshotInfo) (hcid : ' ' ∉ s.chainId.data) (hpath : ' ' ∉ s.newPath.data)
    (hH : ∀ x, ' ' ∉ (H x).data) :
    cutField (snapshotMetadataLine h H disk "true" s) 1 = s.chainId ∧
      cutField (snapshotMetadataLine h H disk "true" s) 2 = s.newPath ∧
      cutField (snapshotMetadataLine h H disk "true" s) 3
        = twoLevelChecksum h H (disk s.newPath) := by
  have hcks : ' ' ∉ (twoLevelChecksum h H (disk s.newPath)).data := hH _
  rw [snapshotMetadataLine, if_pos rfl]
  exact cutField_three s.chainId s.newPath _ hcid hpath hcks

/-- C6 counterexample: the reference `myorg/app:v1.2` has no dot before its
first slash, so the claim requires it to be pulled as
`docker.io/myorg/app:v1.2`; the code tests for a dot anywhere in the
reference, finds one in the tag, and pulls it unchanged. -/
theorem C6_normalization_counterexample :
    specHasDomainMarker "myorg/app:v1.2" = false ∧
      full_image_name "myorg/app:v1.2" = "myorg/app:v1.2" ∧
      full_image_name "myorg/app:v1.2" ≠ "docker.io/" ++ "myorg/app:v1.2" := by
  refine ⟨by decide, rfl, by decide⟩

/-- C6 amended: the registry-domain marker the puller actually uses is a
dot anywhere in the reference (tag and digest included). A reference with
no dot at all is prefixed with the official-image
namespace of the default registry when it has no slash, and with the default registry domain only
when it has a slash; every reference containing a dot anywhere is pulled
unchanged. -/
theorem C6_image_reference_normalization (image : String) :
    (containsChar image '.' = false → containsChar image '/' = false →
      full_image_name image = "docker.io/library/" ++ image) ∧
    (containsChar image '.' = false → containsChar image '/' = true →
      full_image_name image = "docker.io/" ++ image) ∧
    (containsChar image '.' = true → full_image_name image = image) := by
  refine ⟨?_, ?_, ?_⟩
  · intro h1 h2
    rw [full_image_name, if_pos h1, if_pos h2]
  · intro h1 h2
    have h2' : ¬ (containsChar image '/' = false) := by simp [h2]
    rw [full_image_name, if_pos h1, if_neg h2']
  · intro h1
    have h1' : ¬ (containsChar image '.' = false) := by simp [h1]
    rw [full_image_name, if_neg h1']

/-- Witness for the amended C6 at the three kinds of references. -/
theorem C6_image_reference_normalization_witness :
    full_image_name "nginx:latest" = "docker.io/library/" ++ "nginx:latest" ∧
      full_image_name "grafana/loki:2" = "docker.io/" ++ "grafana/loki:2" ∧
      full_image_name "gcr.io/proj/img:1.0" = "gcr.io/proj/img:1.0" :=
  ⟨(C6_image_reference_normalization "nginx:latest").1 (by decide) (by decide),
    (C6_image_reference_normalization "grafana/loki:2").2.1 (by decide) (by decide),
    (C6_image_reference_normalization "gcr.io/proj/img:1.0").2.2 (by decide)⟩

/-- C8 counterexample: on a fully successful local build, the single
cleanup that Execute schedules still carries the 5-minute delay — the
resources are not torn down immediately after successful image creation,
contrary to the claim that the delay applies only to failures. -/
theorem C8_teardown_counterexample :
    executeWorkflow true ⟨none, none, none, none, none, none⟩
      = (none, [⟨some ⟨false, true⟩, fiveMinutes⟩]) ∧ fiveMinutes ≠ 0 := by
  exact ⟨rfl, by decide⟩

/-- C8 amended: Execute schedules exactly one cleanup on every path, always
with the same bounded 5-minute delay — after success just as after
failure; the cleanup carries the created resources (disk, and VM in remote
mode) once environment setup has succeeded and nothing before that; and
the value Execute returns is always the error of the originating step annotated
with the step name (or none on success) — never a cleanup error, since
cleanup runs asynchronously after the return value is fixed. -/
theorem C8_resource_teardown (isLocalMode : Bool) (o : StepOutcomes) :
    ((executeWorkflow isLocalMode o).2.length = 1 ∧
      ∀ c ∈ (executeWorkflow isLocalMode o).2, c.delaySeconds = fiveMinutes) ∧
    (o.validateErr = none → (if isLocalMode then o.existingErr else none) = none →
      o.setupErr = none →
      (executeWorkflow isLocalMode o).2 = [⟨some ⟨!isLocalMode, true⟩, fiveMinutes⟩]) ∧
    (∀ e, o.validateErr = some e →
      (executeWorkflow isLocalMode o)
        = (some ("prerequisite validation failed: " ++ e), [⟨none, fiveMinutes⟩])) ∧
    (∀ e, o.validateErr = none → (if isLocalMode then o.existingErr else none) = some e →
      (executeWorkflow isLocalMode o)
        = (some ("existing images handling failed: " ++ e), [⟨none, fiveMinutes⟩])) ∧
    (∀ e, o.validateErr = none → (if isLocalMode then o.existingErr else none) = none →
      o.setupErr = some e →
      (executeWorkflow isLocalMode o)
        = (some ("environment setup failed: " ++ e), [⟨none, fiveMinutes⟩])) ∧
    (∀ e, o.validateErr = none → (if isLocalMode then o.existingErr else none) = none →
      o.setupErr = none → o.execErr = some e →
      (executeWorkflow isLocalMode o).1
        = some ((if isLocalMode then "local mode execution failed: "
            else "remote mode execution failed: ") ++ e)) ∧
    (∀ e, o.validateErr = none → (if isLocalMode then o.existingErr else none) = none →
      o.setupErr = none → o.execErr = none → o.createImageErr = some e →
      (executeWorkflow isLocalMode o).1 = some ("cache image creation failed: " ++ e)) ∧
    (∀ e, o.validateErr = none → (if isLocalMode then o.existingErr else none) = none →
      o.setupErr = none → o.execErr = none → o.createImageErr = none → o.verifyErr = some e →
      (executeWorkflow isLocalMode o).1 = some ("cache image verification failed: " ++ e)) ∧
    (o.validateErr = none → (if isLocalMode then o.existingErr else none) = none →
      o.setupErr = none → o.execErr = none → o.createImageErr = none → o.verifyErr = none →
      (executeWorkflow isLocalMode o).1 = none) := by
  obtain ⟨v, ex, se, xe, ce, ve⟩ := o
  refine ⟨?_, ?_, ?_, ?_, ?_, ?_, ?_, ?_, ?_⟩
  · cases hm : (if isLocalMode then ex else none) <;>
      cases v <;> cases se <;> cases xe <;> cases ce <;> cases ve <;>
      simp [executeWorkflow, hm]
  · intro h1 h2 h3
    simp only at h1 h2 h3
    cases xe <;> cases ce <;> cases ve <;> simp [executeWorkflow, h1, h2, h3]
  · intro e h1
    simp only at h1
    simp [executeWorkflow, h1]
  · intro e h1 h2
    simp only at h1 h2
    simp [executeWorkflow, h1, h2]
  · intro e h1 h2 h3
    simp only at h1 h2 h3
    simp [executeWorkflow, h1, h2, h3]
  · intro e h1 h2 h3 h4
    simp only at h1 h2 h3 h4
    simp [executeWorkflow, h1, h2, h3, h4]
  · intro e h1 h2 h3 h4 h5
    simp only at h1 h2 h3 h4 h5
    simp [executeWorkflow, h1, h2, h3, h4, h5]
  · intro e h1 h2 h3 h4 h5 h6
    simp only at h1 h2 h3 h4 h5 h6
    simp [executeWorkflow, h1, h2, h3, h4, h5, h6]
  · intro h1 h2 h3 h4 h5 h6
    simp only at h1 h2 h3 h4 h5 h6
    simp [executeWorkflow, h1, h2, h3, h4, h5, h6]

/-- Witness for the amended C8: a remote build whose verification step
fails returns the verification error and schedules cleanup of the VM and
disk with the 5-minute delay. -/
theorem C8_resource_teardown_witness :
    (executeWorkflow false ⟨none, none, none, none, none, some "checksum mismatch"⟩).1
      = some ("cache image verification failed: " ++ "checksum mismatch") :=
  (C8_resource_teardown false ⟨none, none, none, none, none, some "checksum mismatch"⟩).2.2.2.2.2.2.2.1
    "checksum mismatch" rfl rfl rfl rfl rfl rfl

theorem leadsChars_self_append : ∀ (p rest : List Char), leadsChars p (p ++ rest) = true
  | [], _ => rfl
  | a :: as, rest => by
    simp only [List.cons_append, leadsChars, beq_self_eq_true, Bool.true_and]
    exact leadsChars_self_append as rest

theorem occursIn_self_append : ∀ (p rest : List Char), occursIn p (p ++ rest) = true := by
  intro p rest
  cases p with
  | nil =>
    cases rest with
    | nil => rfl
    | cons c cs => simp [occursIn, leadsChars]
  | cons a as =>
    have hl := leadsChars_self_append (a :: as) rest
    simp only [List.cons_append] at hl
    simp [occursIn, hl]

theorem occursIn_cons (p : List Char) (c : Char) (l : List Char) (h : occursIn p l = true) :
    occursIn p (c :: l) = true := by
  simp only [occursIn, h, Bool.or_true]

theorem occursIn_append_right (p : List Char) :
    ∀ (x l : List Char), occursIn p l = true → occursIn p (x ++ l) = true
  | [], _, h => h
  | c :: x, l, h => by
    rw [List.cons_append]
    exact occursIn_cons p c (x ++ l) (occursIn_append_right p x l h)

/-- C9: checksum storage is always enabled, independently of the build
request (whose configuration struct carries no checksum-storage field): the
local path hardwires StoreChecksums to `true` and hands the script the
string "true"; the remote command contains the literal token `true` in the
checksum-storage position; and consequently every snapshots.metadata
record written under this flag carries a checksum column (its third field
is the two-level checksum, a nonempty string). -/
theorem C9_checksums_always_enabled (cfg : BuildConfig) (h H : String → String)
    (disk : String → List FileEntry) (s : SnapshotInfo)
    (hcid : ' ' ∉ s.chainId.data) (hpath : ' ' ∉ s.newPath.data)
    (hHs : ∀ x, ' ' ∉ (H x).data) (hHn : ∀ x, H x ≠ "") :
    (localProcessConfig cfg).storeChecksums = true ∧
    (fullWorkflowArgs (localProcessConfig cfg))[3]? = some "true" ∧
    (remotePullImagesArgs cfg)[1]? = some "true" ∧
    stringsContains (remoteProcessingCommand cfg) " true " = true ∧
    (cutField (snapshotMetadataLine h H disk
        (goBoolString (localProcessConfig cfg).storeChecksums) s) 3
      = twoLevelChecksum h H (disk s.newPath) ∧
    cutField (snapshotMetadataLine h H disk
        (goBoolString (localProcessConfig cfg).storeChecksums) s) 3 ≠ "") := by
  have hgb : goBoolString (localProcessConfig cfg).storeChecksums = "true" := rfl
  have hfields := snapshotMetadataLine_fields h H disk s hcid hpath hHs
  refine ⟨rfl, ?_, ?_, ?_, ?_, ?_⟩
  · simp [fullWorkflowArgs, localProcessConfig, goBoolString]
  · simp [remotePullImagesArgs]
  · have hdata : (remoteProcessingCommand cfg).data
        = (("/tmp/setup-and-verify.sh prepare-disk secondary-disk-image-disk && " ++
            "/tmp/setup-and-verify.sh pull-images ").data ++ cfg.imagePullAuth.data) ++
          ((" true " : String).data ++
            (remoteImagesArg cfg ++ " && echo " ++ singleQuote ++
              "Unpacking is completed." ++ singleQuote).data) := by
      simp [remoteProcessingCommand, string_data_append, List.append_assoc]
    rw [stringsContains, hdata]
    exact occursIn_append_right _ _ _ (occursIn_self_append _ _)
  · rw [hgb]
    exact hfields.2.2
  · rw [hgb, hfields.2.2]
    exact hHn _

/-- Witness for C9 at a concrete build configuration and one snapshot. -/
theorem C9_checksums_always_enabled_witness :
    (localProcessConfig ⟨"None", ["nginx:latest"]⟩).storeChecksums = true ∧
      (remotePullImagesArgs ⟨"None", ["nginx:latest"]⟩)[1]? = some "true" ∧
      cutField (snapshotMetadataLine (fun s => s) (fun _ => "d41d8")
          (fun _ => ([] : List FileEntry))
          (goBoolString (localProcessConfig ⟨"None", ["nginx:latest"]⟩).storeChecksums)
          ⟨"sha256:abc", "snapshots/7/fs"⟩) 3 ≠ "" := by
  have h := C9_checksums_always_enabled ⟨"None", ["nginx:latest"]⟩ (fun s => s)
    (fun _ => "d41d8") (fun _ => ([] : List FileEntry)) ⟨"sha256:abc", "snapshots/7/fs"⟩
    (by decide) (by decide)
    (by intro x; show ' ' ∉ ("d41d8" : String).data; decide)
    (by intro x; show ("d41d8" : String) ≠ ""; decide)
  exact ⟨h.1, h.2.2.1, h.2.2.2.2.2⟩

/-- C10: under ServiceAccountToken auth a host is classified as a cloud
registry exactly when one of the fixed domain substrings occurs anywhere in
it; the match is unanchored, so a non-Google host merely containing
`gcr.io` as a substring still gets a bearer token attached, while every
non-matching host silently receives an AuthConfig of type "none" and no
error. -/
theorem C10_gcp_registry_matching (registry tok : String) (tokenRes : Option String) :
    (isGCPRegistry registry = true ↔ ∃ g ∈ gcpRegistries, stringsContains registry g = true) ∧
    (isGCPRegistry registry = false →
      getServiceAccountAuth tokenRes registry = Except.ok ⟨"none", "", "", "", ""⟩) ∧
    (isGCPRegistry registry = true →
      getServiceAccountAuth (some tok) registry
        = Except.ok ⟨"bearer", tok, "_token", tok, registry⟩) ∧
    (isGCPRegistry "notgooglegcr.io.attacker.example" = true ∧
      getServiceAccountAuth (some tok) "notgooglegcr.io.attacker.example"
        = Except.ok ⟨"bearer", tok, "_token", tok, "notgooglegcr.io.attacker.example"⟩) := by
  have hatk : isGCPRegistry "notgooglegcr.io.attacker.example" = true := by decide
  refine ⟨?_, ?_, ?_, hatk, ?_⟩
  · simp [isGCPRegistry, List.any_eq_true]
  · intro h
    simp [getServiceAccountAuth, h]
  · intro h
    simp [getServiceAccountAuth, h]
  · simp [getServiceAccountAuth, hatk]

/-- Witness for C10: a plain private registry silently downgrades to type
"none" without error, and a matched Google registry gets the bearer token. -/
theorem C10_gcp_registry_matching_witness :
    getServiceAccountAuth none "myregistry.example.com"
        = Except.ok ⟨"none", "", "", "", ""⟩ ∧
      getServiceAccountAuth (some "ya29tok") "eu.gcr.io"
        = Except.ok ⟨"bearer", "ya29tok", "_token", "ya29tok", "eu.gcr.io"⟩ :=
  ⟨(C10_gcp_registry_matching "myregistry.example.com" "ya29tok" none).2.1 (by decide),
    (C10_gcp_registry_matching "eu.gcr.io" "ya29tok" none).2.2.1 (by decide)⟩

/-- C1: the claimed metadata round-trip never happens on the real script.
For every nonempty set of committed snapshots, process_snapshots — invoked
under `set -e` — terminates with exit 1 at the `((current++))` opening its
first loop iteration (line 494, counter initialised to 0 at line 491),
before any view is created or any record written: the metadata stays
empty, the verifier has no mapping to read back, and the mapping the claim
describes never materialises. The extraction machinery the claim relies on
is dead code behind a shell slip; the spec describes the evident intent. -/
theorem C1_round_trip_code_bug (h H : String → String) (disk : String → List FileEntry)
    (outcomes : Nat → Nat → AttemptOutcome) (s : SnapshotInfo) (rest : List SnapshotInfo) :
    process_snapshots_errexit h H disk "true" outcomes (s :: rest) = ⟨[], [], some 1⟩ ∧
    readMapping (process_snapshots_errexit h H disk "true" outcomes (s :: rest)).metadataLines
      = [] ∧
    (s :: rest).map (fun x => (x.chainId, twoLevelChecksum h H (disk x.newPath))) ≠ [] := by
  refine ⟨rfl, rfl, by simp⟩

/-- C4: the bounded view-and-mount retry never runs on the real script,
and its view-creation-failure branch could not retry even if it did. The
loop is unreachable: process_snapshots exits 1 at `((current++))`
(line 494) on its first iteration, before the first attempt, so zero
attempts are ever made for any nonempty snapshot list. Moreover a failing
unguarded `ctr snapshot view` (line 505) terminates the script under
`set -e`, so an attempt whose view creation fails kills the run instead of
being retried — 4 view-creation failures followed by a success cannot lead
to extraction proceeding. The retry protocol the claim (and spec) describe
is the evident intent of lines 497-528; two shell slips make it dead. -/
theorem C4_retry_code_bug (h H : String → String) (disk : String → List FileEntry)
    (store : String) (outcomes : Nat → Nat → AttemptOutcome)
    (s : SnapshotInfo) (rest : List SnapshotInfo) :
    process_snapshots_errexit h H disk store outcomes (s :: rest) = ⟨[], [], some 1⟩ ∧
    (process_snapshots_errexit h H disk store outcomes (s :: rest)).actions = [] ∧
    viewMountRetryErrexit (fun _ => AttemptOutcome.viewFail) 0 5
      = RetryRun.scriptDied [RetryAction.createView] ∧
    viewMountRetryErrexit (fun i => if i = 0 then AttemptOutcome.viewFail
        else AttemptOutcome.success "/var/lib/x/snapshots/3/fs") 0 5
      = RetryRun.scriptDied [RetryAction.createView] := by
  exact ⟨rfl, rfl, rfl, rfl⟩

/-- C5: the all-or-nothing marker protocol never executes on the real
script. For every nonempty image list — whatever the auth mechanism and
whatever the pull outcomes, including all pulls succeeding — pull_images,
invoked under `set -e`, terminates with exit 1 at the `((current++))`
opening its first loop iteration (line 421, counter initialised to 0 at
line 413): no pull is attempted, no success or error marker is written,
and the all-pulled marker only ever appears for the empty list. The
success/error marker protocol of lines 443-471 is the evident intent and
is dead code behind the shell slip. -/
theorem C5_all_or_nothing_code_bug (mech : String) (pullExit : Nat → Nat)
    (img : String) (rest : List String) :
    pull_images_errexit mech pullExit (img :: rest) = ⟨[], none, false, [], false, some 1⟩ ∧
    (pull_images_errexit mech pullExit (img :: rest)).successFlags ≠ [full_image_name img] ∧
    pull_images_errexit mech pullExit [] = ⟨[], none, false, [], true, none⟩ := by
  refine ⟨rfl, ?_, rfl⟩
  simp [pull_images_errexit, pull_images_errexit_loop, arithPostIncrementStatus]
